import Mathlib

/-!
Shallow embedding of the quiz-room service in `src/main.py` (FastAPI app).

Python dictionaries are modelled as association lists over `String` keys
(`dictGet` / `dictInsert` mirror `d[k]` lookup and `d[k] = v` assignment on
dictionaries whose keys are unique); Python sets of question ids are modelled
as lists with `setAdd` mirroring `set.add`.  Every HTTP endpoint becomes a
pure function from the in-memory server state (the `rooms` and `users`
registries) to `Except HTTPError (result × new state)`; raising
`HTTPException(status_code=s, detail=d)` becomes `.error ⟨s, d⟩`, and an
unhandled Python `KeyError` from direct dictionary indexing becomes
`.error ⟨500, "Internal Server Error"⟩`.

Sources of nondeterminism are threaded as explicit parameters: `uuid.uuid4()`
becomes a caller-supplied fresh-id string (or a counter `idStart` feeding
`uuidStr` for question ids), `time.time()` becomes a `now : Nat` argument,
and each call of `random.choice` inside `generate_room_code` becomes an
entry of a caller-supplied list of picks (indices into the alphabet).
The OpenRouter HTTP call inside `generate_questions` is modelled by
`ProviderResult`: `.raises` stands for any exception escaping the `try`
body (missing api key, timeouts, HTTP errors, parse errors), `.returns qs`
for a successful call whose parsed `"questions"` field is `qs`.
-/

deriving instance DecidableEq for Except

/-- Python dict lookup `d.get(k)`: first binding of the key, if any. -/
def dictGet {α : Type} : List (String × α) → String → Option α
  | [], _ => none
  | (k, v) :: rest, key => if k = key then some v else dictGet rest key

/-- Python `k in d` membership test. -/
def dictMem {α : Type} (l : List (String × α)) (key : String) : Bool :=
  (dictGet l key).isSome

/-- Python dict assignment `d[k] = v`: replace the first binding of the key,
or append a fresh binding at the end (insertion order is preserved, as in
Python 3.7+ dictionaries). -/
def dictInsert {α : Type} : List (String × α) → String → α → List (String × α)
  | [], k, v => [(k, v)]
  | (k', v') :: rest, k, v =>
      if k' = k then (k, v) :: rest else (k', v') :: dictInsert rest k v

/-- Python `set.add`: add an element unless it is already present. -/
def setAdd (s : List String) (x : String) : List String :=
  if x ∈ s then s else x :: s

/-- Python `str.lower()` (ASCII case folding, which is all the quiz data
uses): lower-case every character. -/
def strLower (s : String) : String := String.mk (s.data.map Char.toLower)

/-- A quiz question (validated provider output or fallback content). -/
structure Question where
  id : String
  text : String
  options : List String
  correct_answer : String
  difficulty : String
  category : String
  explanation : String
  timestamp : Nat
deriving DecidableEq, Repr

/-- A room record, mirroring the dict stored in `rooms[room_code]`. -/
structure Room where
  id : String
  name : String
  topic : String
  max_players : Int
  questions : List Question
  players : List String
  admin_id : String
  current_question : Nat
  scores : List (String × Int)
  started : Bool
  created_at : Nat
  answered_correctly : List (String × List String)
deriving DecidableEq, Repr

/-- A user record, mirroring the dict stored in `users[user_id]`. -/
structure User where
  id : String
  username : String
  current_room : String
  score : Int
  is_admin : Bool
  joined_at : Nat
deriving DecidableEq, Repr

/-- The whole in-memory database: the module-level `rooms` and `users` dicts. -/
structure ServerState where
  rooms : List (String × Room)
  users : List (String × User)
deriving DecidableEq, Repr

/-- An `HTTPException`: status code plus detail message. -/
structure HTTPError where
  status : Nat
  detail : String
deriving DecidableEq, Repr

/-- `sorted(scores.items(), key=lambda x: x[1], reverse=True)`: a stable
descending sort of the score pairs by score. -/
def insertDesc (x : String × Int) : List (String × Int) → List (String × Int)
  | [] => [x]
  | y :: ys => if y.2 < x.2 then x :: y :: ys else y :: insertDesc x ys

def leaderboardOf (scores : List (String × Int)) : List (String × Int) :=
  scores.foldr insertDesc []

/-- The alphabet of `generate_room_code`:
`set(string.ascii_uppercase + string.digits) - set('O0I1')`, i.e. the 24
uppercase letters other than `O` and `I` together with the 8 digits other
than `0` and `1` (the Python set has these 32 characters; its iteration
order is arbitrary, `random.choice` only cares about membership). -/
def codeAlphabet : List Char :=
  ['A', 'B', 'C', 'D', 'E', 'F', 'G', 'H', 'J', 'K', 'L', 'M', 'N', 'P',
   'Q', 'R', 'S', 'T', 'U', 'V', 'W', 'X', 'Y', 'Z',
   '2', '3', '4', '5', '6', '7', '8', '9']

/-- `generate_room_code(length)`: one character per `random.choice` call.
Each random pick is modelled as a natural number indexing into the alphabet
(reduced mod its size, so every pick denotes a valid uniform choice). -/
def generate_room_code (len : Nat) (picks : List Nat) : String :=
  String.mk ((List.range len).map fun i =>
    codeAlphabet.getD (picks.getD i 0 % codeAlphabet.length) 'A')

/-- The allocation loop in `create_room`: generate a code, and while it is
already a key of `rooms`, generate another.  Each iteration consumes one
batch of picks; `none` models the (probabilistically impossible) case where
every supplied batch collides, i.e. the loop not terminating within the
supplied randomness. -/
def allocate_code (roomsD : List (String × Room)) : List (List Nat) → Option String
  | [] => none
  | p :: rest =>
      let c := generate_room_code 5 p
      if dictMem roomsD c then allocate_code roomsD rest else some c

/-- A question dict as parsed from the provider response, before validation:
each of the five required keys may be absent. -/
structure RawQuestion where
  text : Option String
  options : Option (List String)
  correct_answer : Option String
  difficulty : Option String
  explanation : Option String
deriving DecidableEq, Repr

/-- The validation filter in `generate_questions`: all five keys present,
options pairwise distinct (`len(set(opts)) == len(opts)`), and the correct
answer among the options. -/
def validQ (q : RawQuestion) : Bool :=
  q.text.isSome && q.options.isSome && q.correct_answer.isSome &&
  q.difficulty.isSome && q.explanation.isSome &&
  (match q.options, q.correct_answer with
   | some opts, some ca => (opts.dedup.length == opts.length) && opts.contains ca
   | _, _ => false)

/-- Fresh question ids: `str(uuid.uuid4())` modelled by a counter. -/
def uuidStr (n : Nat) : String := "uuid-" ++ toString n

/-- Build the validated question record (category is hard-coded). -/
def mkValidated (q : RawQuestion) (id : String) (now : Nat) : Question :=
  { id := id, text := q.text.getD "", options := q.options.getD [],
    correct_answer := q.correct_answer.getD "", difficulty := q.difficulty.getD "",
    category := "stock market", explanation := q.explanation.getD "",
    timestamp := now }

/-- The validation loop over the provider questions, assigning fresh ids. -/
def validateQuestions : List RawQuestion → Nat → Nat → List Question
  | [], _, _ => []
  | q :: rest, idStart, now =>
      if validQ q then
        mkValidated q (uuidStr idStart) now :: validateQuestions rest (idStart + 1) now
      else
        validateQuestions rest idStart now

/-- The fallback question appended by the `while len(validated) < count` loop. -/
def padQuestion (id : String) (now : Nat) : Question :=
  { id := id,
    text := "Which company saw the largest stock price increase in the last 24 hours?",
    options := ["Apple (AAPL)", "Microsoft (MSFT)", "Tesla (TSLA)", "Amazon (AMZN)"],
    correct_answer := "Tesla (TSLA)", difficulty := "medium",
    category := "stock market",
    explanation := "Tesla\x27s stock surged due to positive EV market news.",
    timestamp := now }

/-- Pad the validated list with fallback questions up to `count`. -/
def padToCount (qs : List Question) (count : Nat) (idStart now : Nat) : List Question :=
  qs ++ (List.range (count - qs.length)).map fun i => padQuestion (uuidStr (idStart + i)) now

/-- The static `fallback_questions` list in the `except` branch. -/
def fallback_questions (idStart now : Nat) : List Question :=
  [{ id := uuidStr idStart,
     text := "Which company\x27s stock surged after a major product announcement?",
     options := ["Apple (AAPL)", "Microsoft (MSFT)", "Tesla (TSLA)", "Amazon (AMZN)"],
     correct_answer := "Apple (AAPL)", difficulty := "medium",
     category := "stock market",
     explanation := "Apple announced a new product line, boosting its stock.",
     timestamp := now },
   { id := uuidStr (idStart + 1),
     text := "Which stock fell due to a recent earnings miss?",
     options := ["Google (GOOGL)", "Facebook (META)", "Netflix (NFLX)", "Intel (INTC)"],
     correct_answer := "Netflix (NFLX)", difficulty := "medium",
     category := "stock market",
     explanation := "Netflix reported lower-than-expected subscriber growth.",
     timestamp := now },
   { id := uuidStr (idStart + 2),
     text := "What\x27s the typical price-to-earnings (P/E) ratio for a growth stock?",
     options := ["5-10", "15-25", "30-50", "Over 100"],
     correct_answer := "30-50", difficulty := "medium",
     category := "stock market",
     explanation := "Growth stocks typically have higher P/E ratios due to expected future earnings.",
     timestamp := now },
   { id := uuidStr (idStart + 3),
     text := "Which financial metric is most important when evaluating dividend stocks?",
     options := ["Dividend Yield", "Price-to-Book Ratio", "Beta", "Return on Equity"],
     correct_answer := "Dividend Yield", difficulty := "easy",
     category := "stock market",
     explanation := "Dividend yield indicates how much a company pays out in dividends relative to its share price.",
     timestamp := now },
   { id := uuidStr (idStart + 4),
     text := "What typically happens to bond prices when interest rates rise?",
     options := ["They rise", "They fall", "They remain unchanged", "They become more volatile"],
     correct_answer := "They fall", difficulty := "medium",
     category := "stock market",
     explanation := "Bond prices have an inverse relationship with interest rates.",
     timestamp := now }]

/-- Outcome of the OpenRouter provider call inside `generate_questions`:
`.raises` is any exception escaping the `try` body (missing api key, both
timeouts, HTTP status errors, JSON/`choices` parse errors); `.returns qs`
is a successful call whose parsed question list is `qs`. -/
inductive ProviderResult where
  | raises : ProviderResult
  | returns : List RawQuestion → ProviderResult
deriving DecidableEq, Repr

/-- `generate_questions(topic, count, api_key)`: on success, validate, pad
with the fallback question up to `count` and truncate to `count`; on any
exception, return the static fallback list truncated to `count`. -/
def generate_questions (provider : ProviderResult) (count : Nat)
    (idStart now : Nat) : List Question :=
  match provider with
  | .raises => (fallback_questions idStart now).take count
  | .returns qs =>
      let validated := validateQuestions qs idStart now
      (padToCount validated count (idStart + qs.length) now).take count

/-- Response body of `POST /create-room` (message string omitted). -/
structure CreateResult where
  room_id : String
  admin_id : String
  admin_username : String
  topic : String
  questions_count : Nat
deriving DecidableEq, Repr

/-- `POST /create-room`.  The room code is allocated first (retrying on
collision), then the name-uniqueness check runs, then questions are
generated; the admin user and the room are inserted into the registries.
`none` models the allocation loop never terminating (all supplied pick
batches collide). -/
def create_room (st : ServerState) (name topic : String) (max_players : Int)
    (rounds : Nat) (provider : ProviderResult) (codePicks : List (List Nat))
    (admin_uuid : String) (idStart now : Nat) :
    Option (Except HTTPError (CreateResult × ServerState)) :=
  match allocate_code st.rooms codePicks with
  | none => none
  | some room_code =>
      if st.rooms.any (fun p => p.2.name == name) then
        some (.error ⟨400, "Room name already exists"⟩)
      else
        let questions := generate_questions provider rounds idStart now
        let admin_username := "Admin-" ++ room_code.take 3
        let adminUser : User :=
          ⟨admin_uuid, admin_username, room_code, 0, true, now⟩
        let newRoom : Room :=
          ⟨room_code, name, topic, max_players, questions, [admin_username],
           admin_uuid, 0, [(admin_username, 0)], false, now, [(admin_username, [])]⟩
        some (.ok (⟨room_code, admin_uuid, admin_username, topic, questions.length⟩,
                   ⟨dictInsert st.rooms room_code newRoom,
                    dictInsert st.users admin_uuid adminUser⟩))

/-- The question projection returned to joining players (correct answer
withheld). -/
structure PublicQuestion where
  question_id : String
  text : String
  options : List String
deriving DecidableEq, Repr

def publicQuestions (qs : List Question) : List PublicQuestion :=
  qs.map fun q => ⟨q.id, q.text, q.options⟩

/-- The `room_status` block returned by join. -/
structure RoomStatusBlock where
  started : Bool
  current_question : Nat
  total_questions : Nat
  waiting_for_admin : Bool
deriving DecidableEq, Repr

/-- Response body of `POST /join-room/{room_id}` (message string omitted). -/
structure JoinResult where
  user_id : String
  is_admin : Bool
  players : List String
  questions : List PublicQuestion
  room_status : RoomStatusBlock
  leaderboard : List (String × Int)
deriving DecidableEq, Repr

/-- `POST /join-room/{room_id}`.  Checks, in source order: room exists,
capacity, name already a player (rejoin or conflict), else create the user
and extend the room. -/
def join_room (st : ServerState) (room_id username fresh_uuid : String)
    (now : Nat) : Except HTTPError (JoinResult × ServerState) :=
  match dictGet st.rooms room_id with
  | none => .error ⟨404, "Room not found"⟩
  | some room =>
      if (room.players.length : Int) ≥ room.max_players then
        .error ⟨400, "Room is full"⟩
      else if username ∈ room.players then
        match st.users.find? (fun p =>
            p.2.username == username && p.2.current_room == room_id) with
        | some (uid, uinfo) =>
            .ok (⟨uid, uinfo.is_admin, room.players, publicQuestions room.questions,
                  ⟨room.started, room.current_question, room.questions.length,
                   !room.started⟩,
                  leaderboardOf room.scores⟩, st)
        | none => .error ⟨400, "Username already taken in this room"⟩
      else
        let newUser : User := ⟨fresh_uuid, username, room_id, 0, false, now⟩
        let room1 : Room :=
          { room with players := room.players ++ [username],
                      scores := dictInsert room.scores username 0,
                      answered_correctly :=
                        dictInsert room.answered_correctly username [] }
        .ok (⟨fresh_uuid, false, room1.players, publicQuestions room1.questions,
              ⟨room1.started, room1.current_question, room1.questions.length,
               !room1.started⟩,
              leaderboardOf room1.scores⟩,
             ⟨dictInsert st.rooms room_id room1,
              dictInsert st.users fresh_uuid newUser⟩)

/-- Response body of `POST /start-quiz` (message string omitted). -/
structure StartResult where
  room_id : String
  started : Bool
  players_count : Nat
deriving DecidableEq, Repr

/-- `POST /start-quiz`: admin-only; sets `started = true`. -/
def start_quiz (st : ServerState) (room_id admin_id : String) :
    Except HTTPError (StartResult × ServerState) :=
  match dictGet st.rooms room_id with
  | none => .error ⟨404, "Room not found"⟩
  | some room =>
      if room.admin_id ≠ admin_id then
        .error ⟨403, "Only the admin can start the quiz"⟩
      else
        let room1 : Room := { room with started := true }
        .ok (⟨room_id, true, room1.players.length⟩,
             ⟨dictInsert st.rooms room_id room1, st.users⟩)

/-- Response body of `POST /update-score`. -/
structure ScoreResult where
  username : String
  new_score : Int
  leaderboard : List (String × Int)
deriving DecidableEq, Repr

/-- `POST /update-score`: adds `points` to the room-scoped score
(`scores.get(name, 0) + points`, creating the key if absent) and to the
user's cumulative score.  The user is not required to belong to the room. -/
def update_score (st : ServerState) (room_id user_id : String) (points : Int) :
    Except HTTPError (ScoreResult × ServerState) :=
  match dictGet st.rooms room_id with
  | none => .error ⟨404, "Room not found"⟩
  | some room =>
      match dictGet st.users user_id with
      | none => .error ⟨404, "User not found"⟩
      | some user =>
          let user_name := user.username
          let newScore := (dictGet room.scores user_name).getD 0 + points
          let room1 : Room :=
            { room with scores := dictInsert room.scores user_name newScore }
          let user1 : User := { user with score := user.score + points }
          .ok (⟨user_name, newScore, leaderboardOf room1.scores⟩,
               ⟨dictInsert st.rooms room_id room1,
                dictInsert st.users user_id user1⟩)

/-- Response body of `POST /submit-answer`.  The two return shapes of the
endpoint differ, so fields present in only one shape are `Option`s:
the already-answered early return carries `already_answered = some true`
and no `correct_answer`/`points_earned`; the normal return carries those
two and no `already_answered`. -/
structure SubmitResult where
  correct : Bool
  already_answered : Option Bool
  correct_answer : Option String
  points_earned : Option Int
  current_score : Int
  leaderboard : List (String × Int)
deriving DecidableEq, Repr

/-- `POST /submit-answer`.  Checks in source order: room exists, user
exists, quiz started, question id present in the room's question list.
Then ensures the user's answered-set exists, returns early (no score
change) when the question id is already in it, otherwise scores a
case-insensitive match of the submitted answer.  Both `current_score`
reads are direct dict indexing in the source (`room["scores"][name]`), so
a missing key is an unhandled `KeyError`, i.e. a 500 response. -/
def submit_answer (st : ServerState) (room_id user_id question_id ans : String) :
    Except HTTPError (SubmitResult × ServerState) :=
  match dictGet st.rooms room_id with
  | none => .error ⟨404, "Room not found"⟩
  | some room =>
      match dictGet st.users user_id with
      | none => .error ⟨404, "User not found"⟩
      | some user =>
          let user_name := user.username
          if !room.started then
            .error ⟨400, "Quiz hasn\x27t started yet. Waiting for admin to start."⟩
          else
            match room.questions.find? (fun q => q.id == question_id) with
            | none => .error ⟨404, "Question not found"⟩
            | some question =>
                let ac :=
                  if dictMem room.answered_correctly user_name then
                    room.answered_correctly
                  else
                    dictInsert room.answered_correctly user_name []
                let answeredSet := (dictGet ac user_name).getD []
                if question_id ∈ answeredSet then
                  let room1 : Room := { room with answered_correctly := ac }
                  match dictGet room1.scores user_name with
                  | none => .error ⟨500, "Internal Server Error"⟩
                  | some s =>
                      .ok (⟨false, some true, none, none, s,
                            leaderboardOf room1.scores⟩,
                           ⟨dictInsert st.rooms room_id room1, st.users⟩)
                else
                  let is_correct := strLower ans == strLower question.correct_answer
                  let scores1 :=
                    if is_correct then
                      dictInsert room.scores user_name
                        ((dictGet room.scores user_name).getD 0 + 1)
                    else room.scores
                  let ac1 :=
                    if is_correct then
                      dictInsert ac user_name (setAdd answeredSet question_id)
                    else ac
                  let user1 : User :=
                    if is_correct then { user with score := user.score + 1 } else user
                  let room1 : Room :=
                    { room with scores := scores1, answered_correctly := ac1 }
                  match dictGet room1.scores user_name with
                  | none => .error ⟨500, "Internal Server Error"⟩
                  | some s =>
                      .ok (⟨is_correct, none, some question.correct_answer,
                            some (if is_correct then 1 else 0), s,
                            leaderboardOf room1.scores⟩,
                           ⟨dictInsert st.rooms room_id room1,
                            dictInsert st.users user_id user1⟩)

/-- Response body of `GET /room-status/{room_id}` (a pure read). -/
structure StatusResult where
  name : String
  topic : String
  players : List String
  current_question : Nat
  total_questions : Nat
  scores : List (String × Int)
  started : Bool
  admin_id : String
  waiting_for_admin : Bool
  leaderboard : List (String × Int)
deriving DecidableEq, Repr

/-- `GET /room-status/{room_id}`: read-only, returns no new state. -/
def get_room_status (st : ServerState) (room_id : String) :
    Except HTTPError StatusResult :=
  match dictGet st.rooms room_id with
  | none => .error ⟨404, "Room not found"⟩
  | some room =>
      .ok ⟨room.name, room.topic, room.players, room.current_question,
           room.questions.length, room.scores, room.started, room.admin_id,
           !room.started, leaderboardOf room.scores⟩

/-- `GET /leaderboard/{room_id}`: read-only, returns no new state. -/
def get_leaderboard (st : ServerState) (room_id : String) :
    Except HTTPError (String × List (String × Int)) :=
  match dictGet st.rooms room_id with
  | none => .error ⟨404, "Room not found"⟩
  | some room => .ok (room.name, leaderboardOf room.scores)

/-! ## Invariants and observation helpers -/

/-- The room invariant of the spec: the set of display names that are keys
of the score mapping equals the set of display names in the player list. -/
def scoresMatchPlayers (room : Room) : Prop :=
  ∀ name, (dictGet room.scores name).isSome = true ↔ name ∈ room.players

/-- The invariant over a whole rooms registry. -/
def invRooms (l : List (String × Room)) : Prop :=
  ∀ code room, dictGet l code = some room → scoresMatchPlayers room

/-- The invariant over the whole server state. -/
def invAll (st : ServerState) : Prop := invRooms st.rooms

/-- The room-scoped score of a display name, if present. -/
def roomScore (st : ServerState) (room_id name : String) : Option Int :=
  (dictGet st.rooms room_id).bind fun r => dictGet r.scores name

/-- The cumulative score of a user record, if present. -/
def userScore (st : ServerState) (user_id : String) : Option Int :=
  (dictGet st.users user_id).map (·.score)

/-! ## Concrete example states used by witnesses and counterexamples -/

def exQuestion : Question :=
  ⟨"q1", "Color?", ["red", "blue"], "red", "easy", "stock market", "why", 0⟩

def exRoomStarted : Room :=
  ⟨"R1", "Alpha", "colors", 10, [exQuestion], ["Ann"], "u1", 0,
   [("Ann", 0)], true, 0, [("Ann", [])]⟩

def exUserAnn : User := ⟨"u1", "Ann", "R1", 0, true, 0⟩

def exStateStarted : ServerState := ⟨[("R1", exRoomStarted)], [("u1", exUserAnn)]⟩

def exRoomUnstarted : Room := { exRoomStarted with started := false }

def exStateUnstarted : ServerState :=
  ⟨[("R1", exRoomUnstarted)], [("u1", exUserAnn)]⟩

def exRoomFull : Room := { exRoomStarted with max_players := 1 }

def exStateFull : ServerState := ⟨[("R1", exRoomFull)], [("u1", exUserAnn)]⟩

def exRoomOther : Room :=
  ⟨"R2", "Beta", "numbers", 10, [], ["Bob"], "u2", 0, [("Bob", 0)], false, 0,
   [("Bob", [])]⟩

def exUserBob : User := ⟨"u2", "Bob", "R2", 0, true, 0⟩

def exStateTwo : ServerState :=
  ⟨[("R1", exRoomStarted), ("R2", exRoomOther)],
   [("u1", exUserAnn), ("u2", exUserBob)]⟩

/-- The empty registries (process start with no snapshot file). -/
def emptyState : ServerState := ⟨[], []⟩

/-- Output of creating a room in `emptyState` with picks `[0,0,0,0,0]`,
provider failure, zero rounds: code "AAAAA". -/
def newRoomAAAAA : Room :=
  ⟨"AAAAA", "N", "T", 10, [], ["Admin-AAA"], "a1", 0, [("Admin-AAA", 0)], false,
   0, [("Admin-AAA", [])]⟩

def adminAAAAA : User := ⟨"a1", "Admin-AAA", "AAAAA", 0, true, 0⟩

def stateAAAAA : ServerState := ⟨[("AAAAA", newRoomAAAAA)], [("a1", adminAAAAA)]⟩

def resAAAAA : CreateResult := ⟨"AAAAA", "a1", "Admin-AAA", "T", 0⟩

/-- State after Bob joins `exStateStarted`. -/
def exRoomJoined : Room :=
  { exRoomStarted with players := ["Ann", "Bob"],
                       scores := [("Ann", 0), ("Bob", 0)],
                       answered_correctly := [("Ann", []), ("Bob", [])] }

def exUserBobR1 : User := ⟨"u9", "Bob", "R1", 0, false, 0⟩

def exStateJoined : ServerState :=
  ⟨[("R1", exRoomJoined)], [("u1", exUserAnn), ("u9", exUserBobR1)]⟩

/-- State after `update_score exStateStarted "R1" "u1" 2`. -/
def exRoomUpdated : Room := { exRoomStarted with scores := [("Ann", 2)] }

def exStateUpdated : ServerState :=
  ⟨[("R1", exRoomUpdated)], [("u1", { exUserAnn with score := 2 })]⟩

/-- State after Ann submits the correct answer in `exStateStarted`. -/
def exRoomSubmitted : Room :=
  { exRoomStarted with scores := [("Ann", 1)],
                       answered_correctly := [("Ann", ["q1"])] }

def exStateSubmitted : ServerState :=
  ⟨[("R1", exRoomSubmitted)], [("u1", { exUserAnn with score := 1 })]⟩

/-- State after `update_score exStateTwo "R1" "u2" 1`: Bob (a player of R2
only) now has a score entry in R1. -/
def exRoomBroken : Room :=
  { exRoomStarted with scores := [("Ann", 0), ("Bob", 1)] }

def exStateBroken : ServerState :=
  ⟨[("R1", exRoomBroken), ("R2", exRoomOther)],
   [("u1", exUserAnn), ("u2", { exUserBob with score := 1 })]⟩

/-! ## Basic lemmas -/

theorem dictGet_dictInsert {α : Type} (l : List (String × α)) (k k' : String) (v : α) :
    dictGet (dictInsert l k v) k' = if k' = k then some v else dictGet l k' := by
  induction l with
  | nil => simp [dictInsert, dictGet, eq_comm]
  | cons hd tl ih =>
      obtain ⟨k₀, v₀⟩ := hd
      by_cases h0 : k₀ = k
      · subst h0
        simp only [dictInsert, if_pos rfl, dictGet]
        by_cases h : k₀ = k'
        · subst h
          simp
        · have h' : ¬ k' = k₀ := fun hh => h hh.symm
          simp [h, h']
      · simp only [dictInsert, if_neg h0, dictGet]
        rw [ih]
        by_cases h1 : k₀ = k'
        · subst h1
          simp [h0]
        · simp [h1]

theorem dictMem_eq_false_iff {α : Type} (l : List (String × α)) (k : String) :
    dictMem l k = false ↔ dictGet l k = none := by
  unfold dictMem
  cases dictGet l k <;> simp

theorem invRooms_insert {l : List (String × Room)} {code : String} {room : Room}
    (h : invRooms l) (hr : scoresMatchPlayers room) :
    invRooms (dictInsert l code room) := by
  intro c r hc
  rw [dictGet_dictInsert] at hc
  split_ifs at hc with hceq
  · cases hc
    exact hr
  · exact h c r hc

theorem smp_same {r r' : Room} (h : scoresMatchPlayers r)
    (hs : r'.scores = r.scores) (hp : r'.players = r.players) :
    scoresMatchPlayers r' := by
  intro n
  rw [hs, hp]
  exact h n

theorem smp_single {r : Room} {n : String} {v : Int}
    (hs : r.scores = [(n, v)]) (hp : r.players = [n]) :
    scoresMatchPlayers r := by
  intro name
  rw [hs, hp]
  by_cases hn : name = n
  · subst hn
    simp [dictGet]
  · have hn' : ¬ (n = name) := fun hh => hn hh.symm
    simp [dictGet, hn', hn]

theorem smp_extend {r r' : Room} {name : String} (h : scoresMatchPlayers r)
    (hs : r'.scores = dictInsert r.scores name 0)
    (hp : r'.players = r.players ++ [name]) :
    scoresMatchPlayers r' := by
  intro n
  rw [hs, hp, dictGet_dictInsert]
  by_cases hn : n = name
  · subst hn
    simp
  · simp only [if_neg hn, List.mem_append, List.mem_singleton, hn, or_false]
    exact h n

theorem smp_insert_mem {r r' : Room} {name : String} {v : Int}
    (h : scoresMatchPlayers r) (hmem : name ∈ r.players)
    (hs : r'.scores = dictInsert r.scores name v) (hp : r'.players = r.players) :
    scoresMatchPlayers r' := by
  intro n
  rw [hs, hp, dictGet_dictInsert]
  by_cases hn : n = name
  · subst hn
    simp [hmem]
  · simp only [if_neg hn]
    exact h n

theorem invAll_exStateStarted : invAll exStateStarted := by
  intro code room h
  simp only [exStateStarted, dictGet] at h
  split_ifs at h with h1
  cases h
  exact smp_single (n := "Ann") (v := 0) rfl rfl

theorem invAll_exStateTwo : invAll exStateTwo := by
  intro code room h
  simp only [exStateTwo, dictGet] at h
  split_ifs at h with h1 h2
  · cases h
    exact smp_single (n := "Ann") (v := 0) rfl rfl
  · cases h
    exact smp_single (n := "Bob") (v := 0) rfl rfl

/-! ## Claims -/

/-- C4: for every answer submission to an existing room and existing user,
if the room's `started` flag is false the operation fails with the
DomainNotStarted error (400, quiz not started), regardless of whether the
submitted answer matches the correct answer, and no score or answered-set
changes (no new state is produced). -/
theorem C4_not_started_rejected (st : ServerState)
    (room_id user_id question_id ans : String) (room : Room) (user : User)
    (hroom : dictGet st.rooms room_id = some room)
    (huser : dictGet st.users user_id = some user)
    (hns : room.started = false) :
    submit_answer st room_id user_id question_id ans =
      .error ⟨400, "Quiz hasn\x27t started yet. Waiting for admin to start."⟩ := by
  unfold submit_answer
  rw [hroom, huser]
  simp [hns]

/-- Witness for C4: a concrete unstarted room, with a correct answer. -/
theorem C4_witness :
    submit_answer exStateUnstarted "R1" "u1" "q1" "red" =
      .error ⟨400, "Quiz hasn\x27t started yet. Waiting for admin to start."⟩ :=
  C4_not_started_rejected exStateUnstarted "R1" "u1" "q1" "red" exRoomUnstarted
    exUserAnn rfl rfl rfl

/-- C3 (amended): an unknown room code yields NotFound; a known room with an
unknown user id yields NotFound; and for a *started* room with known room
and user, a question id that does not occur in the room's question list
yields NotFound.  (The original claim's "for every room state, started or
not" fails: the not-started check precedes the question lookup, see the
counterexample.) -/
theorem C3_notfound_errors (st : ServerState)
    (room_id user_id question_id ans : String) :
    (dictGet st.rooms room_id = none →
      submit_answer st room_id user_id question_id ans =
        .error ⟨404, "Room not found"⟩) ∧
    (∀ room, dictGet st.rooms room_id = some room →
      dictGet st.users user_id = none →
      submit_answer st room_id user_id question_id ans =
        .error ⟨404, "User not found"⟩) ∧
    (∀ room user, dictGet st.rooms room_id = some room →
      dictGet st.users user_id = some user →
      room.started = true →
      room.questions.find? (fun q => q.id == question_id) = none →
      submit_answer st room_id user_id question_id ans =
        .error ⟨404, "Question not found"⟩) := by
  refine ⟨fun hnone => ?_, fun room hroom hnone => ?_, fun room user hroom huser hst hq => ?_⟩
  · unfold submit_answer
    rw [hnone]
  · unfold submit_answer
    rw [hroom, hnone]
  · unfold submit_answer
    rw [hroom, huser]
    simp [hst, hq]

/-- Counterexample for C3 as stated: in a not-started room, an unknown
question id is answered with the DomainNotStarted error, not NotFound. -/
theorem C3_counterexample :
    exRoomUnstarted.questions.find? (fun q => q.id == "qq") = none ∧
    submit_answer exStateUnstarted "R1" "u1" "qq" "red" =
      .error ⟨400, "Quiz hasn\x27t started yet. Waiting for admin to start."⟩ ∧
    submit_answer exStateUnstarted "R1" "u1" "qq" "red" ≠
      .error ⟨404, "Question not found"⟩ := by
  refine ⟨rfl, rfl, by decide⟩

/-- Witness for C3: each NotFound case at a concrete input. -/
theorem C3_witness :
    submit_answer exStateStarted "NOPE" "u1" "q1" "red" =
      .error ⟨404, "Room not found"⟩ ∧
    submit_answer exStateStarted "R1" "nobody" "q1" "red" =
      .error ⟨404, "User not found"⟩ ∧
    submit_answer exStateStarted "R1" "u1" "qq" "red" =
      .error ⟨404, "Question not found"⟩ :=
  ⟨(C3_notfound_errors exStateStarted "NOPE" "u1" "q1" "red").1 rfl,
   (C3_notfound_errors exStateStarted "R1" "nobody" "q1" "red").2.1 exRoomStarted rfl rfl,
   (C3_notfound_errors exStateStarted "R1" "u1" "qq" "red").2.2 exRoomStarted exUserAnn
     rfl rfl rfl rfl⟩

theorem dictInsert_dictInsert {α : Type} (l : List (String × α)) (k : String) (v v' : α) :
    dictInsert (dictInsert l k v) k v' = dictInsert l k v' := by
  induction l with
  | nil => simp [dictInsert]
  | cons hd tl ih =>
      obtain ⟨k₀, v₀⟩ := hd
      by_cases h : k₀ = k
      · simp [dictInsert, h]
      · simp [dictInsert, h, ih]

theorem mem_setAdd_self (s : List String) (x : String) : x ∈ setAdd s x := by
  unfold setAdd
  split
  · assumption
  · exact List.mem_cons_self x s

/-- Equation for `submit_answer` on a first-time correct answer: one point
is added to the room-scoped score and the cumulative score, and the
question id is added to the submitter's answered-set. -/
theorem submit_first_correct (st : ServerState) (rid uid qid ans : String)
    (room : Room) (user : User) (question : Question)
    (hroom : dictGet st.rooms rid = some room)
    (huser : dictGet st.users uid = some user)
    (hst : room.started = true)
    (hq : room.questions.find? (fun q => q.id == qid) = some question)
    (hcorrect : strLower ans = strLower question.correct_answer)
    (hnew : qid ∉ (dictGet room.answered_correctly user.username).getD []) :
    submit_answer st rid uid qid ans =
      .ok (⟨true, none, some question.correct_answer, some 1,
            (dictGet room.scores user.username).getD 0 + 1,
            leaderboardOf (dictInsert room.scores user.username
              ((dictGet room.scores user.username).getD 0 + 1))⟩,
           ⟨dictInsert st.rooms rid
              { room with
                scores := dictInsert room.scores user.username
                  ((dictGet room.scores user.username).getD 0 + 1),
                answered_correctly := dictInsert room.answered_correctly user.username
                  (setAdd ((dictGet room.answered_correctly user.username).getD []) qid) },
            dictInsert st.users uid { user with score := user.score + 1 }⟩) := by
  unfold submit_answer
  rw [hroom, huser]
  simp only [hst, Bool.not_true, if_false, hq, hcorrect, beq_self_eq_true, if_true]
  by_cases hm : dictMem room.answered_correctly user.username
  · simp only [hm, if_true]
    rw [if_neg (show ¬ (false = true) by simp), if_neg hnew, dictGet_dictInsert,
        if_pos rfl]
  · simp only [hm, if_false]
    have hmf : dictMem room.answered_correctly user.username = false := by
      simpa using hm
    have hgn : dictGet room.answered_correctly user.username = none :=
      (dictMem_eq_false_iff _ _).mp hmf
    simp only [if_neg (show ¬ (false = true) by simp)]
    rw [dictGet_dictInsert, if_pos rfl]
    simp [hgn, dictGet_dictInsert, dictInsert_dictInsert]

/-- Equation for `submit_answer` when the question id is already in the
submitter's answered-set: early return, no score change, no registry
change beyond rewriting the room to itself. -/
theorem submit_already (st : ServerState) (rid uid qid ans : String)
    (room : Room) (user : User) (question : Question) (s : Int)
    (hroom : dictGet st.rooms rid = some room)
    (huser : dictGet st.users uid = some user)
    (hst : room.started = true)
    (hq : room.questions.find? (fun q => q.id == qid) = some question)
    (hold : qid ∈ (dictGet room.answered_correctly user.username).getD [])
    (hscore : dictGet room.scores user.username = some s) :
    submit_answer st rid uid qid ans =
      .ok (⟨false, some true, none, none, s, leaderboardOf room.scores⟩,
           ⟨dictInsert st.rooms rid room, st.users⟩) := by
  have hm : dictMem room.answered_correctly user.username = true := by
    unfold dictMem
    cases hc : dictGet room.answered_correctly user.username with
    | none => rw [hc] at hold; simp at hold
    | some l => simp
  unfold submit_answer
  rw [hroom, huser]
  have hns : (!room.started) = false := by rw [hst]; rfl
  simp only [hns, hq, hm, eq_self_iff_true, if_true]
  simp only [if_neg (show ¬ (false = true) by simp)]
  rw [if_pos hold, hscore]

/-- C2: if a user submits a correct answer to the same question twice, the
room-scoped score and the cumulative score are each incremented exactly
once (by one point, on the first submission); the second submission
returns `already_answered = true` and changes neither score. -/
theorem C2_single_credit (st : ServerState) (room_id user_id question_id ans : String)
    (room : Room) (user : User) (question : Question)
    (hroom : dictGet st.rooms room_id = some room)
    (huser : dictGet st.users user_id = some user)
    (hst : room.started = true)
    (hq : room.questions.find? (fun q => q.id == question_id) = some question)
    (hcorrect : strLower ans = strLower question.correct_answer)
    (hnew : question_id ∉ (dictGet room.answered_correctly user.username).getD []) :
    ∃ res1 st1 res2 st2,
      submit_answer st room_id user_id question_id ans = .ok (res1, st1) ∧
      res1.correct = true ∧
      res1.points_earned = some 1 ∧
      roomScore st1 room_id user.username =
        some ((dictGet room.scores user.username).getD 0 + 1) ∧
      userScore st1 user_id = some (user.score + 1) ∧
      submit_answer st1 room_id user_id question_id ans = .ok (res2, st2) ∧
      res2.already_answered = some true ∧
      res2.current_score = (dictGet room.scores user.username).getD 0 + 1 ∧
      roomScore st2 room_id user.username = roomScore st1 room_id user.username ∧
      userScore st2 user_id = userScore st1 user_id := by
  have h1 := submit_first_correct st room_id user_id question_id ans room user question
    hroom huser hst hq hcorrect hnew
  set newScore := (dictGet room.scores user.username).getD 0 + 1 with hns
  set room1 : Room :=
    { room with
      scores := dictInsert room.scores user.username newScore,
      answered_correctly := dictInsert room.answered_correctly user.username
        (setAdd ((dictGet room.answered_correctly user.username).getD []) question_id) }
    with hroom1
  set user1 : User := { user with score := user.score + 1 } with huser1
  set st1 : ServerState :=
    ⟨dictInsert st.rooms room_id room1, dictInsert st.users user_id user1⟩ with hst1
  have hroomS1 : dictGet st1.rooms room_id = some room1 := by
    rw [hst1]
    simp [dictGet_dictInsert]
  have huserS1 : dictGet st1.users user_id = some user1 := by
    rw [hst1]
    simp [dictGet_dictInsert]
  have hscore1 : dictGet room1.scores user.username = some newScore := by
    rw [hroom1]
    simp [dictGet_dictInsert]
  have hold1 : question_id ∈ (dictGet room1.answered_correctly user.username).getD [] := by
    rw [hroom1]
    simp only [dictGet_dictInsert, if_pos rfl, Option.getD_some]
    exact mem_setAdd_self _ _
  have h2 := submit_already st1 room_id user_id question_id ans room1 user1 question
    newScore hroomS1 huserS1 hst hq hold1 hscore1
  have hroomS2 : dictGet (dictInsert st1.rooms room_id room1) room_id = some room1 := by
    simp [dictGet_dictInsert]
  refine ⟨_, st1, _, _, h1, rfl, rfl, ?_, ?_, h2, rfl, rfl, ?_, ?_⟩
  · unfold roomScore
    rw [hroomS1]
    simp [hscore1]
  · unfold userScore
    rw [huserS1]
    rfl
  · unfold roomScore
    rw [hroomS2, hroomS1]
  · rfl

/-- Witness for C2: Ann answers her one question correctly (in different
case) twice in a concrete started room. -/
theorem C2_witness :
    ∃ res1 st1 res2 st2,
      submit_answer exStateStarted "R1" "u1" "q1" "RED" = .ok (res1, st1) ∧
      res1.correct = true ∧
      res1.points_earned = some 1 ∧
      roomScore st1 "R1" exUserAnn.username =
        some ((dictGet exRoomStarted.scores exUserAnn.username).getD 0 + 1) ∧
      userScore st1 "u1" = some (exUserAnn.score + 1) ∧
      submit_answer st1 "R1" "u1" "q1" "RED" = .ok (res2, st2) ∧
      res2.already_answered = some true ∧
      res2.current_score = (dictGet exRoomStarted.scores exUserAnn.username).getD 0 + 1 ∧
      roomScore st2 "R1" exUserAnn.username = roomScore st1 "R1" exUserAnn.username ∧
      userScore st2 "u1" = userScore st1 "u1" :=
  C2_single_credit exStateStarted "R1" "u1" "q1" "RED" exRoomStarted exUserAnn
    exQuestion rfl rfl rfl rfl (by decide) (by decide)

/-- C5 (amended): for a room whose player count is strictly below capacity
and a display name already in its player list, join-room is idempotent when
a user record with that name and room exists (returns the existing user id
and current room state, leaving the registries unchanged), and fails with
the Conflict error when no such record exists.  (The original claim fails
for a room at capacity: the capacity check precedes the rejoin branch, see
the counterexample.) -/
theorem C5_rejoin_semantics (st : ServerState) (room_id username fresh_uuid : String)
    (now : Nat) (room : Room)
    (hroom : dictGet st.rooms room_id = some room)
    (hcap : (room.players.length : Int) < room.max_players)
    (hmem : username ∈ room.players) :
    (∀ uid uinfo,
      st.users.find? (fun p => p.2.username == username && p.2.current_room == room_id)
        = some (uid, uinfo) →
      join_room st room_id username fresh_uuid now =
        .ok (⟨uid, uinfo.is_admin, room.players, publicQuestions room.questions,
              ⟨room.started, room.current_question, room.questions.length,
               !room.started⟩, leaderboardOf room.scores⟩, st)) ∧
    (st.users.find? (fun p => p.2.username == username && p.2.current_room == room_id)
        = none →
      join_room st room_id username fresh_uuid now =
        .error ⟨400, "Username already taken in this room"⟩) := by
  constructor
  · intro uid uinfo hfind
    unfold join_room
    rw [hroom]
    dsimp only
    rw [if_neg (not_le.mpr hcap), if_pos hmem, hfind]
  · intro hfind
    unfold join_room
    rw [hroom]
    dsimp only
    rw [if_neg (not_le.mpr hcap), if_pos hmem, hfind]

/-- Witness for C5: Ann rejoins her own (not-full) room and gets her
existing id back with the state unchanged. -/
theorem C5_witness :
    join_room exStateStarted "R1" "Ann" "u9" 0 =
      .ok (⟨"u1", exUserAnn.is_admin, exRoomStarted.players,
            publicQuestions exRoomStarted.questions,
            ⟨exRoomStarted.started, exRoomStarted.current_question,
             exRoomStarted.questions.length, !exRoomStarted.started⟩,
            leaderboardOf exRoomStarted.scores⟩, exStateStarted) ∧
    join_room exStateStarted "R1" "Ann" "u9" 0 = .ok
      (⟨"u1", true, ["Ann"], [⟨"q1", "Color?", ["red", "blue"]⟩],
        ⟨true, 0, 1, false⟩, [("Ann", 0)]⟩, exStateStarted) :=
  ⟨(C5_rejoin_semantics exStateStarted "R1" "Ann" "u9" 0 exRoomStarted rfl
      (by decide) (by decide)).1 "u1" exUserAnn rfl, by decide⟩

/-- Counterexample for C5 as stated: at capacity, a rejoin by an existing
matching user fails with the Capacity error instead of being idempotent. -/
theorem C5_counterexample :
    "Ann" ∈ exRoomFull.players ∧
    exStateFull.users.find?
      (fun p => p.2.username == "Ann" && p.2.current_room == "R1")
      = some ("u1", exUserAnn) ∧
    join_room exStateFull "R1" "Ann" "u9" 0 = .error ⟨400, "Room is full"⟩ ∧
    join_room exStateFull "R1" "Ann" "u9" 0 ≠
      .ok (⟨"u1", exUserAnn.is_admin, exRoomFull.players,
            publicQuestions exRoomFull.questions,
            ⟨exRoomFull.started, exRoomFull.current_question,
             exRoomFull.questions.length, !exRoomFull.started⟩,
            leaderboardOf exRoomFull.scores⟩, exStateFull) :=
  ⟨by decide, rfl, rfl, by decide⟩

/-- C9: update-score does not require the target user to belong to the
target room: for an existing room and an existing user whose current room
is different and whose name is not in the room's player list nor its score
mapping, update-score succeeds, adds the delta to the user's cumulative
score, and inserts the user's display name as a new key of the room's
score mapping initialized from 0, even though the name is not a player. -/
theorem C9_update_cross_room (st : ServerState) (room_id user_id : String)
    (points : Int) (room : Room) (user : User)
    (hroom : dictGet st.rooms room_id = some room)
    (huser : dictGet st.users user_id = some user)
    (_hdiff : user.current_room ≠ room_id)
    (hnokey : dictGet room.scores user.username = none)
    (hnoplayer : user.username ∉ room.players) :
    ∃ res st',
      update_score st room_id user_id points = .ok (res, st') ∧
      res.new_score = points ∧
      roomScore st' room_id user.username = some points ∧
      userScore st' user_id = some (user.score + points) ∧
      ∃ room', dictGet st'.rooms room_id = some room' ∧
        dictMem room'.scores user.username = true ∧
        user.username ∉ room'.players := by
  have heq : update_score st room_id user_id points =
      .ok (⟨user.username, points,
            leaderboardOf (dictInsert room.scores user.username points)⟩,
           ⟨dictInsert st.rooms room_id
              { room with scores := dictInsert room.scores user.username points },
            dictInsert st.users user_id { user with score := user.score + points }⟩) := by
    unfold update_score
    rw [hroom, huser]
    simp [hnokey]
  have hroomS : dictGet (dictInsert st.rooms room_id
      { room with scores := dictInsert room.scores user.username points }) room_id =
      some { room with scores := dictInsert room.scores user.username points } := by
    simp [dictGet_dictInsert]
  refine ⟨_, _, heq, rfl, ?_, ?_, ?_⟩
  · unfold roomScore
    rw [hroomS]
    simp [dictGet_dictInsert]
  · unfold userScore
    simp [dictGet_dictInsert]
  · exact ⟨_, hroomS, by simp [dictMem, dictGet_dictInsert], hnoplayer⟩

/-- Witness for C9: Bob (in room R2) gets 5 points added in room R1. -/
theorem C9_witness :
    ∃ res st',
      update_score exStateTwo "R1" "u2" 5 = .ok (res, st') ∧
      res.new_score = 5 ∧
      roomScore st' "R1" exUserBob.username = some 5 ∧
      userScore st' "u2" = some (exUserBob.score + 5) ∧
      ∃ room', dictGet st'.rooms "R1" = some room' ∧
        dictMem room'.scores exUserBob.username = true ∧
        exUserBob.username ∉ room'.players :=
  C9_update_cross_room exStateTwo "R1" "u2" 5 exRoomStarted exUserBob rfl rfl
    (by decide) (by decide) (by decide)

/-! ## Inversion lemmas for the mutating operations -/

theorem generate_room_code_length (len : Nat) (picks : List Nat) :
    (generate_room_code len picks).length = len := by
  unfold generate_room_code
  simp [String.length]

theorem getD_mem_of_mem {α : Type} (l : List α) (n : Nat) (d : α) (hd : d ∈ l) :
    l.getD n d ∈ l := by
  unfold List.getD
  cases hg : l.get? n with
  | none => simpa using hd
  | some a => simpa using List.get?_mem hg

theorem generate_room_code_chars (len : Nat) (picks : List Nat) :
    ∀ c ∈ (generate_room_code len picks).data, c ∈ codeAlphabet := by
  intro c hc
  unfold generate_room_code at hc
  have hmk : (String.mk ((List.range len).map fun i =>
      codeAlphabet.getD (picks.getD i 0 % codeAlphabet.length) 'A')).data =
      (List.range len).map fun i =>
        codeAlphabet.getD (picks.getD i 0 % codeAlphabet.length) 'A' := rfl
  rw [hmk] at hc
  rcases List.mem_map.mp hc with ⟨i, _, rfl⟩
  exact getD_mem_of_mem _ _ _ (by decide)

theorem allocate_code_spec (roomsD : List (String × Room)) (picksL : List (List Nat))
    (c : String) (h : allocate_code roomsD picksL = some c) :
    (∃ p, c = generate_room_code 5 p) ∧ dictMem roomsD c = false := by
  induction picksL with
  | nil => simp [allocate_code] at h
  | cons p rest ih =>
      unfold allocate_code at h
      try dsimp only at h
      by_cases hm : dictMem roomsD (generate_room_code 5 p) = true
      · rw [if_pos hm] at h
        exact ih h
      · rw [if_neg hm] at h
        cases h
        exact ⟨⟨p, rfl⟩, by simpa using hm⟩

theorem create_room_ok_inv (st : ServerState) (name topic : String) (mp : Int)
    (rounds : Nat) (provider : ProviderResult) (picks : List (List Nat))
    (admin : String) (idStart now : Nat) (res : CreateResult) (st' : ServerState)
    (h : create_room st name topic mp rounds provider picks admin idStart now
      = some (.ok (res, st'))) :
    allocate_code st.rooms picks = some res.room_id ∧
    ∃ newRoom, st'.rooms = dictInsert st.rooms res.room_id newRoom ∧
      newRoom.current_question = 0 ∧
      newRoom.players = ["Admin-" ++ res.room_id.take 3] ∧
      newRoom.scores = [("Admin-" ++ res.room_id.take 3, 0)] ∧
      newRoom.questions = generate_questions provider rounds idStart now := by
  unfold create_room at h
  split at h
  · simp at h
  · rename_i code halloc
    split_ifs at h with hname
    · simp at h
    · simp only [Option.some.injEq, Except.ok.injEq, Prod.mk.injEq] at h
      obtain ⟨h1, h2⟩ := h
      subst h1
      subst h2
      exact ⟨halloc, _, rfl, rfl, rfl, rfl, rfl⟩

theorem join_room_ok_inv (st : ServerState) (rid uname uuid : String) (now : Nat)
    (res : JoinResult) (st' : ServerState)
    (h : join_room st rid uname uuid now = .ok (res, st')) :
    st' = st ∨
    ∃ room room1, dictGet st.rooms rid = some room ∧
      st'.rooms = dictInsert st.rooms rid room1 ∧
      room1.players = room.players ++ [uname] ∧
      room1.current_question = room.current_question ∧
      room1.scores = dictInsert room.scores uname 0 := by
  unfold join_room at h
  split at h
  · simp at h
  · rename_i room heq
    split_ifs at h with hcap hmem
    · split at h
      · rename_i p hfind
        simp only [Except.ok.injEq, Prod.mk.injEq] at h
        exact Or.inl h.2.symm
      · simp at h
    · simp only [Except.ok.injEq, Prod.mk.injEq] at h
      obtain ⟨h1, h2⟩ := h
      subst h2
      exact Or.inr ⟨room, _, heq, rfl, rfl, rfl, rfl⟩

theorem start_quiz_ok_inv (st : ServerState) (rid aid : String)
    (res : StartResult) (st' : ServerState)
    (h : start_quiz st rid aid = .ok (res, st')) :
    ∃ room room1, dictGet st.rooms rid = some room ∧
      st'.rooms = dictInsert st.rooms rid room1 ∧
      room1.players = room.players ∧
      room1.current_question = room.current_question ∧
      room1.scores = room.scores ∧ room1.started = true := by
  unfold start_quiz at h
  split at h
  · simp at h
  · rename_i room heq
    split_ifs at h with hadm
    simp only [Except.ok.injEq, Prod.mk.injEq] at h
    obtain ⟨h1, h2⟩ := h
    subst h2
    exact ⟨room, _, heq, rfl, rfl, rfl, rfl, rfl⟩

theorem update_score_ok_inv (st : ServerState) (rid uid : String) (pts : Int)
    (res : ScoreResult) (st' : ServerState)
    (h : update_score st rid uid pts = .ok (res, st')) :
    ∃ room user room1, dictGet st.rooms rid = some room ∧
      dictGet st.users uid = some user ∧
      st'.rooms = dictInsert st.rooms rid room1 ∧
      room1.players = room.players ∧
      room1.current_question = room.current_question ∧
      room1.scores = dictInsert room.scores user.username
        ((dictGet room.scores user.username).getD 0 + pts) := by
  unfold update_score at h
  split at h
  · simp at h
  · rename_i room heq
    split at h
    · simp at h
    · rename_i user hequ
      simp only [Except.ok.injEq, Prod.mk.injEq] at h
      obtain ⟨h1, h2⟩ := h
      subst h2
      exact ⟨room, user, _, heq, hequ, rfl, rfl, rfl, rfl⟩

theorem submit_answer_ok_inv (st : ServerState) (rid uid qid ans : String)
    (res : SubmitResult) (st' : ServerState)
    (h : submit_answer st rid uid qid ans = .ok (res, st')) :
    ∃ room user room1, dictGet st.rooms rid = some room ∧
      dictGet st.users uid = some user ∧
      st'.rooms = dictInsert st.rooms rid room1 ∧
      room1.players = room.players ∧
      room1.current_question = room.current_question ∧
      (room1.scores = room.scores ∨
       room1.scores = dictInsert room.scores user.username
         ((dictGet room.scores user.username).getD 0 + 1)) := by
  unfold submit_answer at h
  split at h
  · simp at h
  · rename_i room heq
    split at h
    · simp at h
    · rename_i user hequ
      split_ifs at h with hns
      split at h
      · simp at h
      · rename_i question hq
        dsimp only at h
        split_ifs at h
        all_goals split at h
        all_goals
          first
            | (simp at h
               done)
            | (simp only [Except.ok.injEq, Prod.mk.injEq] at h
               obtain ⟨hh1, hh2⟩ := h
               subst hh2
               refine ⟨room, user, _, heq, hequ, rfl, rfl, rfl, ?_⟩
               first
                 | exact Or.inl rfl
                 | exact Or.inr rfl)

theorem currentq_preserved_insert {stR : List (String × Room)} {rid : String}
    {room1 : Room}
    (hcq : ∀ r0, dictGet stR rid = some r0 →
      room1.current_question = r0.current_question) :
    ∀ code r0 r', dictGet stR code = some r0 →
      dictGet (dictInsert stR rid room1) code = some r' →
      r'.current_question = r0.current_question := by
  intro code r0 r' h0 h1
  rw [dictGet_dictInsert] at h1
  split_ifs at h1 with hc
  · subst hc
    cases h1
    exact hcq r0 h0
  · rw [h0] at h1
    cases h1
    rfl

theorem invAll_emptyState : invAll emptyState := by
  intro code room h
  simp [emptyState, dictGet] at h

/-- C7: every room code assigned at creation has length 5, consists only of
characters of the unambiguous alphabet (in particular none of O, 0, I, 1),
and is not a key of the room registry at assignment time. -/
theorem C7_room_code_properties (st : ServerState) (name topic : String)
    (max_players : Int) (rounds : Nat) (provider : ProviderResult)
    (codePicks : List (List Nat)) (admin_uuid : String) (idStart now : Nat)
    (res : CreateResult) (st' : ServerState)
    (hok : create_room st name topic max_players rounds provider codePicks
      admin_uuid idStart now = some (.ok (res, st'))) :
    res.room_id.length = 5 ∧
    (∀ c ∈ res.room_id.data, c ∈ codeAlphabet ∧
      c ≠ 'O' ∧ c ≠ '0' ∧ c ≠ 'I' ∧ c ≠ '1') ∧
    dictGet st.rooms res.room_id = none := by
  obtain ⟨halloc, -⟩ :=
    create_room_ok_inv st name topic max_players rounds provider codePicks
      admin_uuid idStart now res st' hok
  obtain ⟨⟨p, hp⟩, hfree⟩ := allocate_code_spec st.rooms codePicks res.room_id halloc
  refine ⟨?_, ?_, ?_⟩
  · rw [hp]
    exact generate_room_code_length 5 p
  · intro c hc
    have hmem : c ∈ codeAlphabet := by
      refine generate_room_code_chars 5 p c ?_
      rw [← hp]
      exact hc
    have hall : ∀ ch ∈ codeAlphabet,
        ch ≠ 'O' ∧ ch ≠ '0' ∧ ch ≠ 'I' ∧ ch ≠ '1' := by decide
    exact ⟨hmem, hall c hmem⟩
  · exact (dictMem_eq_false_iff _ _).mp hfree

/-- Witness for C7: a concrete room creation in the empty registry. -/
theorem C7_witness :
    resAAAAA.room_id.length = 5 ∧
    (∀ c ∈ resAAAAA.room_id.data, c ∈ codeAlphabet ∧
      c ≠ 'O' ∧ c ≠ '0' ∧ c ≠ 'I' ∧ c ≠ '1') ∧
    dictGet emptyState.rooms resAAAAA.room_id = none :=
  C7_room_code_properties emptyState "N" "T" 10 0 .raises [[0, 0, 0, 0, 0]]
    "a1" 0 0 resAAAAA stateAAAAA rfl

/-- C6: if the room name is not taken and the allocator terminates, room
creation with a failing provider still succeeds, the provider error is not
propagated, and the room's questions are the fixed fallback sequence
(truncated to the requested round count). -/
theorem C6_provider_failure_absorbed (st : ServerState) (name topic : String)
    (max_players : Int) (rounds : Nat) (codePicks : List (List Nat))
    (admin_uuid : String) (idStart now : Nat) (code : String)
    (halloc : allocate_code st.rooms codePicks = some code)
    (hname : st.rooms.any (fun p => p.2.name == name) = false) :
    ∃ res st', create_room st name topic max_players rounds .raises codePicks
        admin_uuid idStart now = some (.ok (res, st')) ∧
      ∃ room', dictGet st'.rooms res.room_id = some room' ∧
        room'.questions = (fallback_questions idStart now).take rounds := by
  have heq : create_room st name topic max_players rounds .raises codePicks
      admin_uuid idStart now =
      some (.ok (⟨code, admin_uuid, "Admin-" ++ code.take 3, topic,
                  (generate_questions .raises rounds idStart now).length⟩,
                 ⟨dictInsert st.rooms code
                    ⟨code, name, topic, max_players,
                     generate_questions .raises rounds idStart now,
                     ["Admin-" ++ code.take 3], admin_uuid, 0,
                     [("Admin-" ++ code.take 3, 0)], false, now,
                     [("Admin-" ++ code.take 3, [])]⟩,
                  dictInsert st.users admin_uuid
                    ⟨admin_uuid, "Admin-" ++ code.take 3, code, 0, true, now⟩⟩)) := by
    unfold create_room
    rw [halloc]
    dsimp only
    rw [if_neg (show ¬ (st.rooms.any (fun p => p.2.name == name) = true) by
      rw [hname]
      simp)]
  refine ⟨_, _, heq,
    ⟨code, name, topic, max_players,
     generate_questions .raises rounds idStart now,
     ["Admin-" ++ code.take 3], admin_uuid, 0,
     [("Admin-" ++ code.take 3, 0)], false, now,
     [("Admin-" ++ code.take 3, [])]⟩, ?_, rfl⟩
  simp [dictGet_dictInsert]

/-- Witness for C6: creating a room with provider failure and two rounds in
the empty registry yields the first two fallback questions. -/
theorem C6_witness :
    ∃ res st', create_room emptyState "N" "T" 10 2 .raises [[0, 0, 0, 0, 0]]
        "a1" 0 0 = some (.ok (res, st')) ∧
      ∃ room', dictGet st'.rooms res.room_id = some room' ∧
        room'.questions = (fallback_questions 0 0).take 2 :=
  C6_provider_failure_absorbed emptyState "N" "T" 10 2 [[0, 0, 0, 0, 0]]
    "a1" 0 0 "AAAAA" rfl rfl

/-- C10: on provider success with fewer validated questions than requested,
the result is padded with copies of the fixed fallback question to exactly
`count` questions; on provider failure with `count` greater than 5, the
static fallback list yields exactly 5 questions, fewer than requested. -/
theorem C10_padding_and_shortfall :
    (∀ qs count idStart now,
      (validateQuestions qs idStart now).length < count →
      generate_questions (.returns qs) count idStart now =
        validateQuestions qs idStart now ++
          (List.range (count - (validateQuestions qs idStart now).length)).map
            (fun i => padQuestion (uuidStr (idStart + qs.length + i)) now) ∧
      (generate_questions (.returns qs) count idStart now).length = count) ∧
    (∀ count idStart now, 5 < count →
      (generate_questions .raises count idStart now).length = 5 ∧
      (generate_questions .raises count idStart now).length < count) := by
  constructor
  · intro qs count idStart now hlt
    have hlen : (padToCount (validateQuestions qs idStart now) count
        (idStart + qs.length) now).length = count := by
      unfold padToCount
      simp [Nat.add_sub_cancel' (le_of_lt hlt)]
    constructor
    · show (padToCount (validateQuestions qs idStart now) count
        (idStart + qs.length) now).take count = _
      rw [List.take_of_length_le (le_of_eq hlen)]
      rfl
    · show ((padToCount (validateQuestions qs idStart now) count
        (idStart + qs.length) now).take count).length = count
      rw [List.take_of_length_le (le_of_eq hlen)]
      exact hlen
  · intro count idStart now h5
    have h1 : (generate_questions .raises count idStart now).length = 5 := by
      show ((fallback_questions idStart now).take count).length = 5
      rw [List.length_take]
      exact Nat.min_eq_right (le_of_lt h5)
    exact ⟨h1, by rw [h1]; exact h5⟩

/-- Witness for C10: an empty provider list padded to 3 questions, and a
provider failure asked for 6 rounds giving only 5 questions. -/
theorem C10_witness :
    (generate_questions (.returns []) 3 0 0 =
      validateQuestions [] 0 0 ++
        (List.range (3 - (validateQuestions [] 0 0).length)).map
          (fun i => padQuestion (uuidStr (0 + ([] : List RawQuestion).length + i)) 0) ∧
     (generate_questions (.returns []) 3 0 0).length = 3) ∧
    ((generate_questions .raises 6 0 0).length = 5 ∧
     (generate_questions .raises 6 0 0).length < 6) :=
  ⟨C10_padding_and_shortfall.1 [] 3 0 0 (by decide),
   C10_padding_and_shortfall.2 6 0 0 (by decide)⟩

/-- C8: the current-question index is 0 at room creation and no exposed
mutating operation (join-room, start-quiz, submit-answer, update-score)
changes the index of any room; the read-only queries return no new state
at all. -/
theorem C8_current_question_inert :
    (∀ st name topic mp rounds provider picks admin idStart now res st',
      create_room st name topic mp rounds provider picks admin idStart now
        = some (.ok (res, st')) →
      (∃ room', dictGet st'.rooms res.room_id = some room' ∧
        room'.current_question = 0) ∧
      (∀ code r0 r', dictGet st.rooms code = some r0 →
        dictGet st'.rooms code = some r' →
        r'.current_question = r0.current_question)) ∧
    (∀ st rid uname uuid now res st',
      join_room st rid uname uuid now = .ok (res, st') →
      ∀ code r0 r', dictGet st.rooms code = some r0 →
        dictGet st'.rooms code = some r' →
        r'.current_question = r0.current_question) ∧
    (∀ st rid aid res st',
      start_quiz st rid aid = .ok (res, st') →
      ∀ code r0 r', dictGet st.rooms code = some r0 →
        dictGet st'.rooms code = some r' →
        r'.current_question = r0.current_question) ∧
    (∀ st rid uid pts res st',
      update_score st rid uid pts = .ok (res, st') →
      ∀ code r0 r', dictGet st.rooms code = some r0 →
        dictGet st'.rooms code = some r' →
        r'.current_question = r0.current_question) ∧
    (∀ st rid uid qid ans res st',
      submit_answer st rid uid qid ans = .ok (res, st') →
      ∀ code r0 r', dictGet st.rooms code = some r0 →
        dictGet st'.rooms code = some r' →
        r'.current_question = r0.current_question) := by
  refine ⟨?_, ?_, ?_, ?_, ?_⟩
  · intro st name topic mp rounds provider picks admin idStart now res st' hok
    obtain ⟨halloc, newRoom, hrooms, hcq0, -, -, -⟩ :=
      create_room_ok_inv st name topic mp rounds provider picks admin idStart
        now res st' hok
    obtain ⟨-, hfree⟩ := allocate_code_spec st.rooms picks res.room_id halloc
    have hnone : dictGet st.rooms res.room_id = none :=
      (dictMem_eq_false_iff _ _).mp hfree
    constructor
    · refine ⟨newRoom, ?_, hcq0⟩
      rw [hrooms, dictGet_dictInsert, if_pos rfl]
    · rw [hrooms]
      refine currentq_preserved_insert ?_
      intro r0 h0
      rw [hnone] at h0
      cases h0
  · intro st rid uname uuid now res st' hok
    rcases join_room_ok_inv st rid uname uuid now res st' hok with
      hsame | ⟨room, room1, heq, hrooms, -, hcq, -⟩
    · subst hsame
      intro code r0 r' h0 h1
      rw [h0] at h1
      cases h1
      rfl
    · rw [hrooms]
      refine currentq_preserved_insert ?_
      intro r0 h0
      rw [heq] at h0
      cases h0
      exact hcq
  · intro st rid aid res st' hok
    obtain ⟨room, room1, heq, hrooms, -, hcq, -, -⟩ :=
      start_quiz_ok_inv st rid aid res st' hok
    rw [hrooms]
    refine currentq_preserved_insert ?_
    intro r0 h0
    rw [heq] at h0
    cases h0
    exact hcq
  · intro st rid uid pts res st' hok
    obtain ⟨room, user, room1, heq, -, hrooms, -, hcq, -⟩ :=
      update_score_ok_inv st rid uid pts res st' hok
    rw [hrooms]
    refine currentq_preserved_insert ?_
    intro r0 h0
    rw [heq] at h0
    cases h0
    exact hcq
  · intro st rid uid qid ans res st' hok
    obtain ⟨room, user, room1, heq, -, hrooms, -, hcq, -⟩ :=
      submit_answer_ok_inv st rid uid qid ans res st' hok
    rw [hrooms]
    refine currentq_preserved_insert ?_
    intro r0 h0
    rw [heq] at h0
    cases h0
    exact hcq

/-- Witness for C8: a concrete creation (index 0) and one concrete
application of each of the four mutating operations, all leaving the
index of room R1 unchanged. -/
theorem C8_witness :
    ((∃ room', dictGet stateAAAAA.rooms resAAAAA.room_id = some room' ∧
        room'.current_question = 0)) ∧
    exRoomJoined.current_question = exRoomStarted.current_question ∧
    exRoomStarted.current_question = exRoomUnstarted.current_question ∧
    exRoomUpdated.current_question = exRoomStarted.current_question ∧
    exRoomSubmitted.current_question = exRoomStarted.current_question :=
  ⟨(C8_current_question_inert.1 emptyState "N" "T" 10 0 .raises [[0, 0, 0, 0, 0]]
      "a1" 0 0 resAAAAA stateAAAAA rfl).1,
   C8_current_question_inert.2.1 exStateStarted "R1" "Bob" "u9" 0
     ⟨"u9", false, ["Ann", "Bob"], [⟨"q1", "Color?", ["red", "blue"]⟩],
      ⟨true, 0, 1, false⟩, [("Bob", 0), ("Ann", 0)]⟩ exStateJoined rfl
     "R1" exRoomStarted exRoomJoined rfl rfl,
   C8_current_question_inert.2.2.1 exStateUnstarted "R1" "u1"
     ⟨"R1", true, 1⟩ exStateStarted rfl
     "R1" exRoomUnstarted exRoomStarted rfl rfl,
   C8_current_question_inert.2.2.2.1 exStateStarted "R1" "u1" 2
     ⟨"Ann", 2, [("Ann", 2)]⟩ exStateUpdated rfl
     "R1" exRoomStarted exRoomUpdated rfl rfl,
   C8_current_question_inert.2.2.2.2 exStateStarted "R1" "u1" "q1" "red"
     ⟨true, none, some "red", some 1, 1, [("Ann", 1)]⟩ exStateSubmitted rfl
     "R1" exRoomStarted exRoomSubmitted rfl rfl⟩

/-- C1 (amended): create-room, join-room and start-quiz preserve the
equality between the score-mapping key set and the player list, for every
room; update-score and submit-answer preserve it provided the looked-up
user's display name is in the target room's player list.  (Unconditional
preservation by update-score fails: applied to a user whose name is not in
the player list it inserts a fresh score key, see the counterexample.) -/
theorem C1_invariant_preservation :
    (∀ st name topic mp rounds provider picks admin idStart now res st',
      invAll st →
      create_room st name topic mp rounds provider picks admin idStart now
        = some (.ok (res, st')) → invAll st') ∧
    (∀ st rid uname uuid now res st',
      invAll st → join_room st rid uname uuid now = .ok (res, st') →
      invAll st') ∧
    (∀ st rid aid res st',
      invAll st → start_quiz st rid aid = .ok (res, st') → invAll st') ∧
    (∀ st rid uid pts res st',
      invAll st →
      (∀ room user, dictGet st.rooms rid = some room →
        dictGet st.users uid = some user → user.username ∈ room.players) →
      update_score st rid uid pts = .ok (res, st') → invAll st') ∧
    (∀ st rid uid qid ans res st',
      invAll st →
      (∀ room user, dictGet st.rooms rid = some room →
        dictGet st.users uid = some user → user.username ∈ room.players) →
      submit_answer st rid uid qid ans = .ok (res, st') → invAll st') := by
  refine ⟨?_, ?_, ?_, ?_, ?_⟩
  · intro st name topic mp rounds provider picks admin idStart now res st'
      hinv hok
    obtain ⟨-, newRoom, hrooms, -, hp, hs, -⟩ :=
      create_room_ok_inv st name topic mp rounds provider picks admin idStart
        now res st' hok
    unfold invAll
    rw [hrooms]
    exact invRooms_insert hinv (smp_single hs hp)
  · intro st rid uname uuid now res st' hinv hok
    rcases join_room_ok_inv st rid uname uuid now res st' hok with
      hsame | ⟨room, room1, heq, hrooms, hp, -, hs⟩
    · subst hsame
      exact hinv
    · unfold invAll
      rw [hrooms]
      exact invRooms_insert hinv (smp_extend (hinv rid room heq) hs hp)
  · intro st rid aid res st' hinv hok
    obtain ⟨room, room1, heq, hrooms, hp, -, hs, -⟩ :=
      start_quiz_ok_inv st rid aid res st' hok
    unfold invAll
    rw [hrooms]
    exact invRooms_insert hinv (smp_same (hinv rid room heq) hs hp)
  · intro st rid uid pts res st' hinv hmem hok
    obtain ⟨room, user, room1, heq, hequ, hrooms, hp, -, hs⟩ :=
      update_score_ok_inv st rid uid pts res st' hok
    unfold invAll
    rw [hrooms]
    exact invRooms_insert hinv
      (smp_insert_mem (hinv rid room heq) (hmem room user heq hequ) hs hp)
  · intro st rid uid qid ans res st' hinv hmem hok
    obtain ⟨room, user, room1, heq, hequ, hrooms, hp, -, hs⟩ :=
      submit_answer_ok_inv st rid uid qid ans res st' hok
    unfold invAll
    rw [hrooms]
    rcases hs with hs | hs
    · exact invRooms_insert hinv (smp_same (hinv rid room heq) hs hp)
    · exact invRooms_insert hinv
        (smp_insert_mem (hinv rid room heq) (hmem room user heq hequ) hs hp)

/-- Counterexample for C1 as stated: in a two-room state satisfying the
equality everywhere, update-score for a user of the other room succeeds
and yields a room whose score mapping has a key ("Bob") that is not in its
player list. -/
theorem C1_counterexample :
    invAll exStateTwo ∧
    update_score exStateTwo "R1" "u2" 1 =
      .ok (⟨"Bob", 1, [("Bob", 1), ("Ann", 0)]⟩, exStateBroken) ∧
    ¬ invAll exStateBroken :=
  ⟨invAll_exStateTwo, rfl, by
    intro hinv
    exact absurd ((hinv "R1" exRoomBroken rfl "Bob").mp (by decide)) (by decide)⟩

/-- Witness for C1: each preservation conjunct applied at a concrete
state. -/
theorem C1_witness :
    invAll stateAAAAA ∧ invAll exStateJoined ∧ invAll exStateStarted ∧
    invAll exStateUpdated ∧ invAll exStateSubmitted :=
  ⟨C1_invariant_preservation.1 emptyState "N" "T" 10 0 .raises
     [[0, 0, 0, 0, 0]] "a1" 0 0 resAAAAA stateAAAAA invAll_emptyState rfl,
   C1_invariant_preservation.2.1 exStateStarted "R1" "Bob" "u9" 0
     ⟨"u9", false, ["Ann", "Bob"], [⟨"q1", "Color?", ["red", "blue"]⟩],
      ⟨true, 0, 1, false⟩, [("Bob", 0), ("Ann", 0)]⟩ exStateJoined
     invAll_exStateStarted rfl,
   C1_invariant_preservation.2.2.1 exStateUnstarted "R1" "u1"
     ⟨"R1", true, 1⟩ exStateStarted
     (by
       intro code room h
       simp only [exStateUnstarted, dictGet] at h
       split_ifs at h with h1
       cases h
       exact smp_single (n := "Ann") (v := 0) rfl rfl) rfl,
   C1_invariant_preservation.2.2.2.1 exStateStarted "R1" "u1" 2
     ⟨"Ann", 2, [("Ann", 2)]⟩ exStateUpdated invAll_exStateStarted
     (by
       intro room user h1 h2
       rw [show dictGet exStateStarted.rooms "R1" = some exRoomStarted from rfl]
         at h1
       rw [show dictGet exStateStarted.users "u1" = some exUserAnn from rfl]
         at h2
       cases h1
       cases h2
       decide) rfl,
   C1_invariant_preservation.2.2.2.2 exStateStarted "R1" "u1" "q1" "red"
     ⟨true, none, some "red", some 1, 1, [("Ann", 1)]⟩ exStateSubmitted
     invAll_exStateStarted
     (by
       intro room user h1 h2
       rw [show dictGet exStateStarted.rooms "R1" = some exRoomStarted from rfl]
         at h1
       rw [show dictGet exStateStarted.users "u1" = some exUserAnn from rfl]
         at h2
       cases h1
       cases h2
       decide) rfl⟩
